import Mathlib

/-!
Shallow embedding of the Scholma MultiPress → HubSpot deal-status sync
(`app.py`, the HTTP-service variant, and `sync_deal_status.py`, the CLI
variant).  Pure Python functions become Lean functions; the HTTP world is
passed in explicitly as page-response lists and response environments, and
every mutating request (deal-stage PATCH, task DELETE) is collected into an
explicit write list.  Fallible code returns `Except`.
-/

/- ### Pipeline-stage and status configuration (`app.py` lines 40-45,
`sync_deal_status.py` lines 35-42) -/

def STAGE_GEWONNEN : String := "3594129638"

def STAGE_VERLOREN : String := "3594129640"

def STATUS_WON : List String := ["Order"]

def STATUS_LOST : List String := ["Order ao", "Vervallen", "Niet gegund", "Te duur >10%"]

/- ### Character-level helpers for the regex fragments `#(\d+)` and
`Offerte\s*#(\d+)` and Python's `str.isdigit` / substring test -/

/-- The maximal run of leading digits, i.e. what the greedy `\d+` captures. -/
def digitRun : List Char → List Char
  | [] => []
  | c :: cs => if c.isDigit then c :: digitRun cs else []

/-- Whether the list starts with a digit. -/
def headIsDigit : List Char → Bool
  | [] => false
  | c :: _ => c.isDigit

/-- `re.search(r"#(\d+)", name)`: scan left to right for a `'#'` immediately
followed by a digit, and return the maximal digit run after that `'#'`. -/
def findHashNum : List Char → Option (List Char)
  | [] => none
  | c :: cs =>
    if c = '#' && headIsDigit cs then some (digitRun cs) else findHashNum cs

/-- Python `s.isdigit()`: non-empty and all characters digits. -/
def pyIsDigitStr (s : String) : Bool :=
  !s.isEmpty && s.data.all Char.isDigit

/-- Match a literal character sequence at the head; return the rest on success. -/
def charsMatch : List Char → List Char → Option (List Char)
  | [], l => some l
  | _ :: _, [] => none
  | p :: ps, c :: cs => if c = p then charsMatch ps cs else none

/-- Python regex `\s` character class. -/
def pyIsSpace (c : Char) : Bool :=
  c = ' ' || c = '\t' || c = '\n' || c = '\r' || c = '\x0b' || c = '\x0c'

/-- Drop the leading whitespace that `\s*` consumes. -/
def dropWs : List Char → List Char
  | [] => []
  | c :: cs => if pyIsSpace c then dropWs cs else c :: cs

/-- Try to match `Offerte\s*#(\d+)` at the current position. -/
def matchOfferteAt (l : List Char) : Option (List Char) :=
  match charsMatch "Offerte".data l with
  | none => none
  | some rest =>
    match dropWs rest with
    | '#' :: c :: cs => if c.isDigit then some (digitRun (c :: cs)) else none
    | _ => none

/-- `re.search(r"Offerte\s*#(\d+)", subject)`: leftmost match wins. -/
def searchOfferte : List Char → Option (List Char)
  | [] => none
  | c :: cs =>
    match matchOfferteAt (c :: cs) with
    | some r => some r
    | none => searchOfferte cs

/-- The quotation number parsed from a task subject (`find_opvolgen_tasks`,
`app.py` line 150). -/
def parseOfferteNum (s : String) : Option String :=
  (searchOfferte s.data).map String.mk

/-- Python substring containment `pat in s` over character lists. -/
def hasSub (pat : List Char) : List Char → Bool
  | [] => pat.isEmpty
  | c :: cs => (charsMatch pat (c :: cs)).isSome || hasSub pat cs

/- ### Data model -/

/-- The deal properties requested by the fetchers; a missing property is the
empty string (`props.get(..., "")`). -/
structure DealProps where
  dealname : String
  client_system_deal_id : String
  offerte_id : String
deriving DecidableEq, Repr

/-- A HubSpot deal as this system sees it.  `stageLabel` is the `"_stage"`
tag the service fetcher attaches (`app.py` line 69); `"?"` when absent. -/
structure Deal where
  id : String
  properties : DealProps
  stageLabel : String
deriving DecidableEq, Repr

/-- A follow-up task: id and `hs_task_subject`. -/
structure HsTask where
  id : String
  subject : String
deriving DecidableEq, Repr

/- ### Identifier extraction (`extract_qn`, `app.py` lines 79-92;
`extract_quotation_number`, `sync_deal_status.py` lines 80-100) -/

def extract_qn (deal : Deal) : Option String :=
  match findHashNum deal.properties.dealname.data with
  | some ds => some (String.mk ds)
  | none =>
    let csdi := deal.properties.client_system_deal_id
    if csdi ≠ "" ∧ pyIsDigitStr csdi = true then some csdi
    else
      let oid := deal.properties.offerte_id
      if oid ≠ "" ∧ pyIsDigitStr oid = true then some oid
      else none

def extract_quotation_number (deal : Deal) : Option String :=
  match findHashNum deal.properties.dealname.data with
  | some ds => some (String.mk ds)
  | none =>
    let csdi := deal.properties.client_system_deal_id
    if csdi ≠ "" ∧ pyIsDigitStr csdi = true then some csdi
    else
      let oid := deal.properties.offerte_id
      if oid ≠ "" ∧ pyIsDigitStr oid = true then some oid
      else none

/- ### Status classification (`app.py` lines 209-216,
`sync_deal_status.py` lines 223-230, restricted to actual status strings) -/

inductive Outcome where
  | won
  | lost
  | unchanged
deriving DecidableEq, Repr

/-- The `elif mp_status in STATUS_WON / STATUS_LOST / else` chain applied to a
status string returned by a successful lookup. -/
def classify_status (s : String) : Outcome :=
  if s ∈ STATUS_WON then .won
  else if s ∈ STATUS_LOST then .lost
  else .unchanged

/-- C1: the classifier is total on status strings, yielding Won exactly on
`"Order"`, Lost exactly on the four configured lost statuses, and Unchanged on
every other string (including `""` and `"xyz"`). -/
theorem C1_classifier_total (s : String) :
    (classify_status s = .won ↔ s = "Order") ∧
    (classify_status s = .lost ↔
      (s = "Order ao" ∨ s = "Vervallen" ∨ s = "Niet gegund" ∨ s = "Te duur >10%")) ∧
    (classify_status s = .unchanged ↔
      ¬(s = "Order" ∨ s = "Order ao" ∨ s = "Vervallen" ∨ s = "Niet gegund" ∨
        s = "Te duur >10%")) := by
  have hwon : s ∈ STATUS_WON ↔ s = "Order" := by
    simp [STATUS_WON]
  have hlost : s ∈ STATUS_LOST ↔
      (s = "Order ao" ∨ s = "Vervallen" ∨ s = "Niet gegund" ∨ s = "Te duur >10%") := by
    simp [STATUS_LOST]
  unfold classify_status
  by_cases h1 : s ∈ STATUS_WON <;> by_cases h2 : s ∈ STATUS_LOST <;>
    rw [hwon] at h1 <;> rw [hlost] at h2 <;>
    simp only [hwon, hlost, if_pos, if_neg, h1, h2, not_false_iff, if_true, if_false] <;>
    simp_all

/- ### Declarative characterization of the `#(\d+)` search, for C2 -/

/-- Whether an option holds a digit character. -/
def optIsDigit : Option Char → Bool
  | some c => c.isDigit
  | none => false

/-- The name has a `'#'` at position `i` immediately followed by a digit,
i.e. the regex `#(\d+)` matches at position `i`. -/
def hashAt (l : List Char) (i : Nat) : Prop :=
  l[i]? = some '#' ∧ optIsDigit l[i + 1]? = true

instance (l : List Char) (i : Nat) : Decidable (hashAt l i) := by
  unfold hashAt; infer_instance

theorem headIsDigit_eq_optIsDigit (cs : List Char) :
    headIsDigit cs = optIsDigit cs[0]? := by
  cases cs <;> simp [headIsDigit, optIsDigit]

/-- The scanner succeeds exactly when some position matches `#(\d+)`. -/
theorem findHashNum_isSome_iff (l : List Char) :
    (findHashNum l).isSome = true ↔ ∃ i, hashAt l i := by
  induction l with
  | nil =>
    constructor
    · intro h; simp [findHashNum] at h
    · rintro ⟨i, h, -⟩; simp at h
  | cons c cs ih =>
    unfold findHashNum
    by_cases hc : (c = '#' && headIsDigit cs) = true
    · rw [if_pos hc]
      simp only [Option.isSome_some, true_iff]
      rw [Bool.and_eq_true, decide_eq_true_eq, headIsDigit_eq_optIsDigit] at hc
      refine ⟨0, by simp [hc.1], ?_⟩
      simpa using hc.2
    · rw [if_neg hc, ih]
      constructor
      · rintro ⟨i, h1, h2⟩
        exact ⟨i + 1, by simpa using h1, by simpa using h2⟩
      · rintro ⟨i, h1, h2⟩
        cases i with
        | zero =>
          exfalso
          apply hc
          rw [Bool.and_eq_true, decide_eq_true_eq, headIsDigit_eq_optIsDigit]
          simp only [List.getElem?_cons_zero, Option.some.injEq] at h1
          simp only [List.getElem?_cons_succ] at h2
          exact ⟨h1, h2⟩
        | succ j =>
          exact ⟨j, by simpa using h1, by simpa using h2⟩

/-- At the first matching position `i`, the scanner returns exactly the
maximal digit run following that `'#'`. -/
theorem findHashNum_first_match (l : List Char) (i : Nat) (hi : hashAt l i)
    (hmin : ∀ j, j < i → ¬ hashAt l j) :
    findHashNum l = some (digitRun (l.drop (i + 1))) := by
  induction l generalizing i with
  | nil => obtain ⟨h1, -⟩ := hi; simp at h1
  | cons c cs ih =>
    cases i with
    | zero =>
      obtain ⟨h1, h2⟩ := hi
      simp only [List.getElem?_cons_zero, Option.some.injEq] at h1
      simp only [List.getElem?_cons_succ] at h2
      unfold findHashNum
      rw [if_pos]
      · simp [List.drop]
      · rw [Bool.and_eq_true, decide_eq_true_eq, headIsDigit_eq_optIsDigit]
        exact ⟨h1, h2⟩
    | succ j =>
      have hc : ¬ (c = '#' && headIsDigit cs) = true := by
        intro hc
        apply hmin 0 (Nat.succ_pos j)
        rw [Bool.and_eq_true, decide_eq_true_eq, headIsDigit_eq_optIsDigit] at hc
        exact ⟨by simp [hc.1], by simpa using hc.2⟩
      unfold findHashNum
      rw [if_neg hc]
      have hi' : hashAt cs j := ⟨by simpa using hi.1, by simpa using hi.2⟩
      have hmin' : ∀ k, k < j → ¬ hashAt cs k := by
        intro k hk hak
        exact hmin (k + 1) (Nat.succ_lt_succ hk)
          ⟨by simpa using hak.1, by simpa using hak.2⟩
      rw [ih j hi' hmin']
      rfl

/-- C2: identifier extraction.  The CLI and service extractors agree; the
`#<digits>` search succeeds exactly when the name matches `#(\d+)` somewhere,
and at the first match it returns exactly that digit run regardless of the
other fields; otherwise a present, purely numeric `client_system_deal_id`
wins, then a present, purely numeric `offerte_id`, and otherwise the result is
`none` ("no identifier", not an error). -/
theorem C2_extract_precedence (d : Deal) :
    (extract_quotation_number d = extract_qn d) ∧
    ((∃ i, hashAt d.properties.dealname.data i) ↔
      (findHashNum d.properties.dealname.data).isSome = true) ∧
    (∀ i, hashAt d.properties.dealname.data i →
      (∀ j, j < i → ¬ hashAt d.properties.dealname.data j) →
      extract_qn d = some (String.mk (digitRun (d.properties.dealname.data.drop (i + 1))))) ∧
    (findHashNum d.properties.dealname.data = none →
      ((d.properties.client_system_deal_id ≠ "" ∧
          pyIsDigitStr d.properties.client_system_deal_id = true) →
        extract_qn d = some d.properties.client_system_deal_id) ∧
      (¬(d.properties.client_system_deal_id ≠ "" ∧
          pyIsDigitStr d.properties.client_system_deal_id = true) →
        (d.properties.offerte_id ≠ "" ∧ pyIsDigitStr d.properties.offerte_id = true) →
        extract_qn d = some d.properties.offerte_id) ∧
      (¬(d.properties.client_system_deal_id ≠ "" ∧
          pyIsDigitStr d.properties.client_system_deal_id = true) →
        ¬(d.properties.offerte_id ≠ "" ∧ pyIsDigitStr d.properties.offerte_id = true) →
        extract_qn d = none)) := by
  refine ⟨rfl, (findHashNum_isSome_iff _).symm, ?_, ?_⟩
  · intro i hi hmin
    unfold extract_qn
    rw [findHashNum_first_match _ i hi hmin]
  · intro hnone
    refine ⟨?_, ?_, ?_⟩
    · intro hc
      unfold extract_qn
      rw [hnone]
      simp only [if_pos hc]
    · intro hc ho
      unfold extract_qn
      rw [hnone]
      simp only [if_neg hc, if_pos ho]
    · intro hc ho
      unfold extract_qn
      rw [hnone]
      simp only [if_neg hc, if_neg ho]

/-- Concrete instantiation of `C2_extract_precedence`: the deal named
`"Offerte #320450 - 2600"` extracts the digit run after the `'#'` at
position 8 even though both external-id fields are present with other
values. -/
theorem C2_extract_precedence_witness :
    extract_qn ⟨"d1", ⟨"Offerte #320450 - 2600", "111", "222"⟩, "?"⟩ =
      some (String.mk (digitRun ((("Offerte #320450 - 2600" : String)).data.drop 9))) :=
  (C2_extract_precedence ⟨"d1", ⟨"Offerte #320450 - 2600", "111", "222"⟩, "?"⟩).2.2.1
    8 (by decide) (by decide)

/- ### Quotation lookup (`check_mp_status`, `app.py` lines 95-110;
`check_multipress_status`, `sync_deal_status.py` lines 103-116) -/

/-- What the wire does for one quotation lookup: either an HTTP response
arrives (any status code, with the parsed `quotation_status` and `company`
fields, defaulting to `""`), or the request raises (connection error,
timeout, ...). -/
inductive LookupWire where
  | resp (code : Nat) (quotation_status : String) (company : String)
  | exc (msg : String)

/-- Service variant: wraps the whole request in `try/except`, folding
transport failures, timeouts and non-200 responses into `(None, message)`. -/
def check_mp_status : LookupWire → Option String × String
  | .resp code qs comp =>
    if code = 200 then (some qs, comp) else (none, "HTTP " ++ toString code)
  | .exc m => (none, m)

/-- CLI variant: no `try/except` — an exception propagates (`Except.error`);
only a non-200 status is folded into `(None, message)`. -/
def check_multipress_status : LookupWire → Except String (Option String × String)
  | .resp code qs comp =>
    if code = 200 then .ok (some qs, comp) else .ok (none, "HTTP " ++ toString code)
  | .exc m => .error m

/-- A wire outcome that is a lookup failure (transport failure, timeout, or
non-200 response). -/
def wireFails : LookupWire → Bool
  | .resp code _ _ => code ≠ 200
  | .exc _ => true

/- ### Mutating requests -/

/-- The two mutating requests the system can issue. -/
inductive WriteReq where
  | patchDeal (deal_id : String) (stage : String)
  | deleteTask (task_id : String)
deriving DecidableEq, Repr

/- ### Service classification loop (`sync`, `app.py` lines 186-216) -/

/-- One entry of the service's `won` list. -/
structure WonItem where
  deal_id : String
  qn : String
  company : String
  from_stage : String
deriving DecidableEq, Repr

/-- One entry of the service's `lost` list. -/
structure LostItem where
  deal_id : String
  qn : String
  company : String
  status : String
  from_stage : String
deriving DecidableEq, Repr

/-- Accumulated state of the classification loop. -/
structure ClassRes where
  won : List WonItem
  lost : List LostItem
  skip : Nat
  errors : Nat
deriving DecidableEq, Repr

/-- The first pass over the fetched deals (`app.py` lines 193-199): deals
without an identifier are counted, the rest become work items. -/
def buildWork : List Deal → Nat × List (Deal × String)
  | [] => (0, [])
  | d :: ds =>
    let r := buildWork ds
    match extract_qn d with
    | none => (r.1 + 1, r.2)
    | some qn => (r.1, (d, qn) :: r.2)

/-- The classification loop over the lookup results (`app.py` lines 207-216),
in the order the work items are processed. -/
def classifyAll (mp : String → LookupWire) : List (Deal × String) → ClassRes
  | [] => ⟨[], [], 0, 0⟩
  | (d, qn) :: rest =>
    let r := classifyAll mp rest
    match check_mp_status (mp qn) with
    | (none, _) => { r with errors := r.errors + 1 }
    | (some st, comp) =>
      match classify_status st with
      | .won => { r with won := ⟨d.id, qn, comp, d.stageLabel⟩ :: r.won }
      | .lost => { r with lost := ⟨d.id, qn, comp, st, d.stageLabel⟩ :: r.lost }
      | .unchanged => { r with skip := r.skip + 1 }

/- Characterizations of the classification loop as order-insensitive
aggregations of a per-item function. -/

/-- The won entry a work item produces, if any. -/
def wonEntry (mp : String → LookupWire) (x : Deal × String) : Option WonItem :=
  match check_mp_status (mp x.2) with
  | (none, _) => none
  | (some st, comp) =>
    match classify_status st with
    | .won => some ⟨x.1.id, x.2, comp, x.1.stageLabel⟩
    | _ => none

/-- The lost entry a work item produces, if any. -/
def lostEntry (mp : String → LookupWire) (x : Deal × String) : Option LostItem :=
  match check_mp_status (mp x.2) with
  | (none, _) => none
  | (some st, comp) =>
    match classify_status st with
    | .lost => some ⟨x.1.id, x.2, comp, st, x.1.stageLabel⟩
    | _ => none

/-- Whether a work item lands in the error bucket. -/
def errP (mp : String → LookupWire) (x : Deal × String) : Bool :=
  ((check_mp_status (mp x.2)).1).isNone

/-- Whether a work item lands in the unchanged (`skip`) bucket. -/
def skipP (mp : String → LookupWire) (x : Deal × String) : Bool :=
  match check_mp_status (mp x.2) with
  | (none, _) => false
  | (some st, _) => classify_status st == .unchanged

theorem classifyAll_won (mp : String → LookupWire) (w : List (Deal × String)) :
    (classifyAll mp w).won = w.filterMap (wonEntry mp) := by
  induction w with
  | nil => rfl
  | cons x rest ih =>
    obtain ⟨d, qn⟩ := x
    rcases h : check_mp_status (mp qn) with ⟨st, comp⟩
    cases st with
    | none =>
      have hw : wonEntry mp (d, qn) = none := by simp [wonEntry, h]
      simp [classifyAll, h, List.filterMap_cons, hw, ih]
    | some s =>
      rcases hcl : classify_status s
      case won =>
        have hw : wonEntry mp (d, qn) = some ⟨d.id, qn, comp, d.stageLabel⟩ := by
          simp [wonEntry, h, hcl]
        simp [classifyAll, h, hcl, List.filterMap_cons, hw, ih]
      case lost =>
        have hw : wonEntry mp (d, qn) = none := by simp [wonEntry, h, hcl]
        simp [classifyAll, h, hcl, List.filterMap_cons, hw, ih]
      case unchanged =>
        have hw : wonEntry mp (d, qn) = none := by simp [wonEntry, h, hcl]
        simp [classifyAll, h, hcl, List.filterMap_cons, hw, ih]

theorem classifyAll_lost (mp : String → LookupWire) (w : List (Deal × String)) :
    (classifyAll mp w).lost = w.filterMap (lostEntry mp) := by
  induction w with
  | nil => rfl
  | cons x rest ih =>
    obtain ⟨d, qn⟩ := x
    rcases h : check_mp_status (mp qn) with ⟨st, comp⟩
    cases st with
    | none =>
      have hw : lostEntry mp (d, qn) = none := by simp [lostEntry, h]
      simp [classifyAll, h, List.filterMap_cons, hw, ih]
    | some s =>
      rcases hcl : classify_status s
      case won =>
        have hw : lostEntry mp (d, qn) = none := by simp [lostEntry, h, hcl]
        simp [classifyAll, h, hcl, List.filterMap_cons, hw, ih]
      case lost =>
        have hw : lostEntry mp (d, qn) = some ⟨d.id, qn, comp, s, d.stageLabel⟩ := by
          simp [lostEntry, h, hcl]
        simp [classifyAll, h, hcl, List.filterMap_cons, hw, ih]
      case unchanged =>
        have hw : lostEntry mp (d, qn) = none := by simp [lostEntry, h, hcl]
        simp [classifyAll, h, hcl, List.filterMap_cons, hw, ih]

theorem classifyAll_errors (mp : String → LookupWire) (w : List (Deal × String)) :
    (classifyAll mp w).errors = w.countP (errP mp) := by
  induction w with
  | nil => rfl
  | cons x rest ih =>
    obtain ⟨d, qn⟩ := x
    unfold classifyAll
    rcases h : check_mp_status (mp qn) with ⟨st, comp⟩
    cases st with
    | none => simp [List.countP_cons, errP, h, ih]
    | some s =>
      rcases hcl : classify_status s <;>
        simp [List.countP_cons, errP, h, hcl, ih]

theorem classifyAll_skip (mp : String → LookupWire) (w : List (Deal × String)) :
    (classifyAll mp w).skip = w.countP (skipP mp) := by
  induction w with
  | nil => rfl
  | cons x rest ih =>
    obtain ⟨d, qn⟩ := x
    unfold classifyAll
    rcases h : check_mp_status (mp qn) with ⟨st, comp⟩
    cases st with
    | none => simp [List.countP_cons, skipP, h, ih]
    | some s =>
      rcases hcl : classify_status s <;>
        simp [List.countP_cons, skipP, h, hcl, ih]

/- ### Paginated fetchers (`get_deals_by_stage`, `app.py` lines 52-76;
`get_hubspot_deals`, `sync_deal_status.py` lines 45-77;
`find_opvolgen_tasks`, `app.py` lines 126-154) -/

/-- One response page of the deal search.  `hasNext` reflects whether the
body carries a `paging.next.after` cursor. -/
structure DealPage where
  status : Nat
  results : List Deal
  hasNext : Bool

/-- One response page of the task search.  The status field is carried but —
faithfully to `find_opvolgen_tasks`, which never inspects it — ignored. -/
structure TaskPage where
  status : Nat
  results : List HsTask
  hasNext : Bool

/-- The deal-fetch pagination loop.  `r.raise_for_status()` turns any
4xx/5xx page into a propagated error; otherwise results accumulate until a
page carries no further cursor. -/
def fetchDealsLoop : List DealPage → Except String (List Deal)
  | [] => .ok []
  | p :: rest =>
    if 400 ≤ p.status ∧ p.status < 600 then .error ("HTTP " ++ toString p.status)
    else if p.hasNext then
      match fetchDealsLoop rest with
      | .error e => .error e
      | .ok ds => .ok (p.results ++ ds)
    else .ok p.results

/-- The task-fetch pagination loop of `find_opvolgen_tasks`: no status check
at all — every page's parsed `results` are taken as-is. -/
def fetchTasksLoop : List TaskPage → List HsTask
  | [] => []
  | p :: rest => if p.hasNext then p.results ++ fetchTasksLoop rest else p.results

/- ### Task selection and deletion, service variant (`find_opvolgen_tasks`
mapping step, `app.py` lines 147-154; `delete_task_for_qn`, lines 113-123) -/

/-- The task ids the `qn → [task_ids]` map holds for one quotation number:
tasks whose subject's `Offerte\s*#(\d+)` match equals that number, in fetch
order. -/
def tasksForQn (tasks : List HsTask) (qn : String) : List String :=
  (tasks.filter (fun t => parseOfferteNum t.subject == some qn)).map HsTask.id

/-- Python set-iteration over the freshly built set, modelled as first
occurrences of the accumulated quotation numbers. -/
def dedupGo (seen : List String) : List String → List String
  | [] => []
  | x :: xs => if x ∈ seen then dedupGo seen xs else x :: dedupGo (x :: seen) xs

theorem dedupGo_subset (seen l : List String) (x : String) :
    x ∈ dedupGo seen l → x ∈ l := by
  induction l generalizing seen with
  | nil => intro h; cases h
  | cons y ys ih =>
    intro h
    unfold dedupGo at h
    by_cases hy : y ∈ seen
    · rw [if_pos hy] at h
      exact List.mem_cons_of_mem y (ih seen h)
    · rw [if_neg hy] at h
      rcases List.mem_cons.mp h with h | h
      · exact h ▸ List.mem_cons_self y ys
      · exact List.mem_cons_of_mem y (ih (y :: seen) h)

/- ### The service endpoint (`sync`, `app.py` lines 162-260) -/

/-- Everything the one `/sync` run reads from or writes to the outside
world, as response environments. -/
structure ServiceEnv where
  dealPages : List DealPage
  mp : String → LookupWire
  patchCode : String → Nat
  taskPages : List TaskPage
  deleteCode : String → Nat

/-- The JSON report the service returns (`app.py` lines 248-260), with the
`won_details` / `lost_details` carried as the underlying item lists. -/
structure SyncReport where
  deals_checked : Nat
  no_quotation_number : Nat
  api_errors : Nat
  unchanged : Nat
  won : Nat
  lost : Nat
  tasks_deleted : Nat
  won_details : List WonItem
  lost_details : List LostItem
deriving DecidableEq, Repr

/-- Steps 2-4 of the service run once the deals are fetched: classify,
patch the won/lost deals (counting only 200 responses), then find and delete
the follow-up tasks of the won/lost quotation numbers (counting only 200/204
responses). -/
def serviceSyncOk (env : ServiceEnv) (deals : List Deal) :
    SyncReport × List WriteReq :=
  let bw := buildWork deals
  let cls := classifyAll env.mp bw.2
  let qns := dedupGo [] (cls.won.map WonItem.qn ++ cls.lost.map LostItem.qn)
  let tasks := if qns.isEmpty then [] else fetchTasksLoop env.taskPages
  let delIds := (qns.map (tasksForQn tasks)).flatten
  ({ deals_checked := deals.length,
     no_quotation_number := bw.1,
     api_errors := cls.errors,
     unchanged := cls.skip,
     won := (cls.won.filter (fun w => env.patchCode w.deal_id == 200)).length,
     lost := (cls.lost.filter (fun w => env.patchCode w.deal_id == 200)).length,
     tasks_deleted :=
       (delIds.filter (fun tid => env.deleteCode tid == 200 || env.deleteCode tid == 204)).length,
     won_details := cls.won,
     lost_details := cls.lost },
   cls.won.map (fun w => WriteReq.patchDeal w.deal_id STAGE_GEWONNEN) ++
     cls.lost.map (fun w => WriteReq.patchDeal w.deal_id STAGE_VERLOREN) ++
     delIds.map WriteReq.deleteTask)

/-- The whole service run body: fetch, then steps 2-4.  A deal-fetch failure
propagates; nothing else can fail. -/
def serviceSync (env : ServiceEnv) : Except String (SyncReport × List WriteReq) :=
  match fetchDealsLoop env.dealPages with
  | .error e => .error e
  | .ok deals => .ok (serviceSyncOk env deals)

/-- Process-wide configuration of the service. -/
structure SvcConfig where
  api_secret : String
  hubspot_api_key : String
  multipress_pass : String

/-- How a `/sync` request can fail before or during the run. -/
inductive SyncFailure where
  | http401
  | http500
  | fetchErr (msg : String)
deriving DecidableEq, Repr

/-- The `/sync` handler: the auth gate (`if API_SECRET and x_api_key !=
API_SECRET`), then the credentials check, then the run.  A missing
`X-API-Key` header is `none`. -/
def syncHandler (cfg : SvcConfig) (x_api_key : Option String) (env : ServiceEnv) :
    Except SyncFailure (SyncReport × List WriteReq) :=
  if cfg.api_secret ≠ "" ∧ x_api_key ≠ some cfg.api_secret then .error .http401
  else if cfg.hubspot_api_key = "" ∨ cfg.multipress_pass = "" then .error .http500
  else
    match serviceSync env with
    | .error e => .error (.fetchErr e)
    | .ok r => .ok r

/- ### CLI variant (`sync_deal_status.py`) -/

/-- One entry of the CLI's per-bucket result lists (`results` dict,
`sync_deal_status.py` line 209).  Fields a bucket does not record are `""`;
for the error bucket the lookup's diagnostic message is the `company`
field's value, matching the code, which stores the second component of the
lookup result under `"error"`. -/
structure CliEntry where
  deal_id : String
  name : String
  qn : String
  status : String
  company : String
deriving DecidableEq, Repr

/-- The five CLI classification buckets. -/
structure CliResults where
  won : List CliEntry
  lost : List CliEntry
  skip : List CliEntry
  error : List CliEntry
  no_qn : List CliEntry
deriving DecidableEq, Repr

/-- The CLI's sequential classification loop (`sync_deal_status.py` lines
211-234).  An uncaught lookup exception aborts the whole loop — and with it
the program. -/
def cliClassify (mp : String → LookupWire) : List Deal → Except String CliResults
  | [] => .ok ⟨[], [], [], [], []⟩
  | d :: ds =>
    let name := d.properties.dealname
    match extract_quotation_number d with
    | none =>
      (cliClassify mp ds).map (fun r => { r with no_qn := ⟨d.id, name, "", "", ""⟩ :: r.no_qn })
    | some qn =>
      match check_multipress_status (mp qn) with
      | .error e => .error e
      | .ok (none, msg) =>
        (cliClassify mp ds).map (fun r => { r with error := ⟨d.id, name, qn, "", msg⟩ :: r.error })
      | .ok (some st, comp) =>
        (cliClassify mp ds).map (fun r =>
          match classify_status st with
          | .won => { r with won := ⟨d.id, name, qn, st, comp⟩ :: r.won }
          | .lost => { r with lost := ⟨d.id, name, qn, st, comp⟩ :: r.lost }
          | .unchanged => { r with skip := ⟨d.id, name, qn, st, ""⟩ :: r.skip })

/-- The single (non-paginated) task-search response used by
`find_and_delete_task` (`sync_deal_status.py` lines 122-136). -/
structure TaskSearchResp where
  status : Nat
  results : List HsTask

/-- The response of the per-task association lookup
(`GET .../tasks/{id}/associations/deals`). -/
structure AssocResp where
  status : Nat
  linked : List String

/-- The per-task loop of `find_and_delete_task` (`sync_deal_status.py`
lines 139-166): subject substring check, then best-effort association
verification, then dry-run print or actual DELETE (counted on 200/204). -/
def fdtLoop (assoc : String → AssocResp) (deleteCode : String → Nat)
    (deal_id qn : String) (dry_run : Bool) : List HsTask → Nat × List WriteReq
  | [] => (0, [])
  | t :: ts =>
    let rest := fdtLoop assoc deleteCode deal_id qn dry_run ts
    if hasSub ("#" ++ qn).data t.subject.data = false then rest
    else
      let a := assoc t.id
      if a.status = 200 ∧ deal_id ∉ a.linked then rest
      else if dry_run then rest
      else if deleteCode t.id = 200 ∨ deleteCode t.id = 204 then
        (rest.1 + 1, WriteReq.deleteTask t.id :: rest.2)
      else (rest.1, WriteReq.deleteTask t.id :: rest.2)

/-- `find_and_delete_task`: a non-200 task search silently yields zero
deletions; otherwise the per-task loop runs.  Returns the number of
successful deletions and the DELETE requests issued. -/
def find_and_delete_task (search : TaskSearchResp) (assoc : String → AssocResp)
    (deleteCode : String → Nat) (deal_id qn : String) (dry_run : Bool) :
    Nat × List WriteReq :=
  if search.status ≠ 200 then (0, [])
  else fdtLoop assoc deleteCode deal_id qn dry_run search.results

/-- `update_deal_stage` (`sync_deal_status.py` lines 169-179): in dry-run
no request is issued and the update "succeeds"; live, a PATCH is issued and
succeeds iff it returns 200. -/
def update_deal_stage (patchCode : String → Nat) (deal_id new_stage : String)
    (dry_run : Bool) : Bool × List WriteReq :=
  if dry_run then (true, [])
  else (patchCode deal_id == 200, [WriteReq.patchDeal deal_id new_stage])

/-- The outside world as the CLI run sees it. -/
structure CliEnv where
  dealPages : List DealPage
  mp : String → LookupWire
  patchCode : String → Nat
  taskSearch : TaskSearchResp
  assoc : String → AssocResp
  deleteCode : String → Nat

/-- What the CLI's final summary reports: total deals fetched, the five
classification buckets (the summary prints their lengths and contents), and
the deleted-task count. -/
structure CliReport where
  total : Nat
  results : CliResults
  tasks_deleted : Nat
deriving DecidableEq, Repr

/-- Steps 3-4 of the CLI run (`sync_deal_status.py` lines 236-270): patch
won then lost deals (live only), then walk won+lost running
`find_and_delete_task` for each. -/
def cliMainOk (env : CliEnv) (dry_run : Bool) (deals : List Deal) (res : CliResults) :
    CliReport × List WriteReq :=
  let patchWrites :=
    if dry_run then [] else
      res.won.map (fun it => WriteReq.patchDeal it.deal_id STAGE_GEWONNEN) ++
        res.lost.map (fun it => WriteReq.patchDeal it.deal_id STAGE_VERLOREN)
  let taskRuns := (res.won ++ res.lost).map
    (fun it => find_and_delete_task env.taskSearch env.assoc env.deleteCode it.deal_id it.qn dry_run)
  ({ total := deals.length,
     results := res,
     tasks_deleted := (taskRuns.map Prod.fst).sum },
   patchWrites ++ (taskRuns.map Prod.snd).flatten)

/-- The CLI run (`main`, `sync_deal_status.py` lines 182-291): fetch,
classify (both can abort), then write-back and task cleanup. -/
def cliMain (env : CliEnv) (dry_run : Bool) : Except String (CliReport × List WriteReq) :=
  match fetchDealsLoop env.dealPages with
  | .error e => .error e
  | .ok deals =>
    match cliClassify env.mp deals with
    | .error e => .error e
    | .ok res => .ok (cliMainOk env dry_run deals res)

/- ### Bucket-counting lemmas -/

theorem buildWork_sum (deals : List Deal) :
    (buildWork deals).1 + (buildWork deals).2.length = deals.length := by
  induction deals with
  | nil => rfl
  | cons d ds ih =>
    cases h : extract_qn d <;> simp only [buildWork, h] <;> simp <;> omega

theorem classifyAll_sum (mp : String → LookupWire) (w : List (Deal × String)) :
    (classifyAll mp w).errors + (classifyAll mp w).skip +
      (classifyAll mp w).won.length + (classifyAll mp w).lost.length = w.length := by
  induction w with
  | nil => rfl
  | cons x rest ih =>
    obtain ⟨d, qn⟩ := x
    rcases h : check_mp_status (mp qn) with ⟨st, comp⟩
    cases st with
    | none => simp only [classifyAll, h]; simp; omega
    | some s =>
      rcases hcl : classify_status s <;>
        (simp only [classifyAll, h, hcl]; simp; omega)

theorem cliClassify_sum (mp : String → LookupWire) (deals : List Deal)
    (res : CliResults) (h : cliClassify mp deals = .ok res) :
    res.no_qn.length + res.error.length + res.skip.length +
      res.won.length + res.lost.length = deals.length := by
  induction deals generalizing res with
  | nil =>
    simp only [cliClassify] at h
    cases h
    rfl
  | cons d ds ih =>
    simp only [cliClassify] at h
    cases he : extract_quotation_number d with
    | none =>
      simp only [he] at h
      cases hrec : cliClassify mp ds with
      | error e => simp [hrec, Except.map] at h
      | ok r =>
        simp only [hrec, Except.map, Except.ok.injEq] at h
        have := ih r hrec
        subst h
        simp
        omega
    | some qn =>
      simp only [he] at h
      rcases hmp : check_multipress_status (mp qn) with e | ⟨st, msg⟩
      · simp [hmp] at h
      · simp only [hmp] at h
        cases st with
        | none =>
          cases hrec : cliClassify mp ds with
          | error e => simp [hrec, Except.map] at h
          | ok r =>
            simp only [hrec, Except.map, Except.ok.injEq] at h
            have := ih r hrec
            subst h
            simp
            omega
        | some s =>
          cases hrec : cliClassify mp ds with
          | error e => simp [hrec, Except.map] at h
          | ok r =>
            simp only [hrec, Except.map, Except.ok.injEq] at h
            have := ih r hrec
            subst h
            rcases hcl : classify_status s <;> simp [hcl] <;> omega

/- ### C3: the partition property -/

/-- The sum of the five per-outcome counters of the service report. -/
def bucketSum (r : SyncReport) : Nat :=
  r.no_quotation_number + r.api_errors + r.unchanged + r.won + r.lost

/-- A run for which the service's emitted counters do not partition the
fetched deal set: one deal, classified Won, whose stage PATCH fails with
HTTP 500. -/
def envC3 : ServiceEnv :=
  { dealPages := [⟨200, [⟨"d1", ⟨"Offerte #1", "", ""⟩, "Voorstel verstuurd"⟩], false⟩],
    mp := fun _ => .resp 200 "Order" "ACME",
    patchCode := fun _ => 500,
    taskPages := [⟨200, [], false⟩],
    deleteCode := fun _ => 204 }

/-- C3 counterexample: in `envC3` the service fetches 1 deal but its report's
`no_quotation_number + api_errors + unchanged + won + lost` is 0, because the
JSON report's `won`/`lost` fields count successful PATCHes, not
classifications — the emitted counters do not partition the deal set. -/
theorem C3_counterexample :
    (serviceSync envC3).map (fun p => (bucketSum p.1, p.1.deals_checked)) =
      .ok (0, 1) := by
  rfl

theorem serviceSyncOk_details_partition (env : ServiceEnv) (deals : List Deal) :
    (serviceSyncOk env deals).1.no_quotation_number +
      (serviceSyncOk env deals).1.api_errors +
      (serviceSyncOk env deals).1.unchanged +
      (serviceSyncOk env deals).1.won_details.length +
      (serviceSyncOk env deals).1.lost_details.length =
      (serviceSyncOk env deals).1.deals_checked := by
  simp only [serviceSyncOk]
  have h1 := buildWork_sum deals
  have h2 := classifyAll_sum env.mp (buildWork deals).2
  omega

/-- C3 amended: the counters partition the fetched deal set with the
classification counts — always in the CLI summary, and in the service report
with `won_details`/`lost_details` lengths in place of `won`/`lost`; the
service's emitted `won`/`lost` fields partition exactly when every stage
PATCH of the run returns 200. -/
theorem C3_partition_amended :
    (∀ env rep ws, serviceSync env = .ok (rep, ws) →
      (rep.no_quotation_number + rep.api_errors + rep.unchanged +
        rep.won_details.length + rep.lost_details.length = rep.deals_checked) ∧
      (((∀ w ∈ rep.won_details, env.patchCode w.deal_id = 200) ∧
        (∀ w ∈ rep.lost_details, env.patchCode w.deal_id = 200)) ↔
        bucketSum rep = rep.deals_checked)) ∧
    (∀ env dr rep ws, cliMain env dr = .ok (rep, ws) →
      rep.results.no_qn.length + rep.results.error.length + rep.results.skip.length +
        rep.results.won.length + rep.results.lost.length = rep.total) := by
  constructor
  · intro env rep ws h
    rcases hf : fetchDealsLoop env.dealPages with e | deals
    · simp [serviceSync, hf] at h
    · simp only [serviceSync, hf, Except.ok.injEq] at h
      have hrep : rep = (serviceSyncOk env deals).1 := by rw [h]
      subst hrep
      have hdet := serviceSyncOk_details_partition env deals
      have hwd : (serviceSyncOk env deals).1.won_details =
          (classifyAll env.mp (buildWork deals).2).won := rfl
      have hld : (serviceSyncOk env deals).1.lost_details =
          (classifyAll env.mp (buildWork deals).2).lost := rfl
      have hW : (serviceSyncOk env deals).1.won =
          ((classifyAll env.mp (buildWork deals).2).won.filter
            (fun w => env.patchCode w.deal_id == 200)).length := rfl
      have hL : (serviceSyncOk env deals).1.lost =
          ((classifyAll env.mp (buildWork deals).2).lost.filter
            (fun w => env.patchCode w.deal_id == 200)).length := rfl
      have hle1 : (serviceSyncOk env deals).1.won ≤
          (serviceSyncOk env deals).1.won_details.length := by
        rw [hW, hwd]
        exact List.length_filter_le _ _
      have hle2 : (serviceSyncOk env deals).1.lost ≤
          (serviceSyncOk env deals).1.lost_details.length := by
        rw [hL, hld]
        exact List.length_filter_le _ _
      refine ⟨hdet, ?_, ?_⟩
      · rintro ⟨hwon, hlost⟩
        have hwf : ((serviceSyncOk env deals).1.won_details.filter
            (fun w => env.patchCode w.deal_id == 200)) =
            (serviceSyncOk env deals).1.won_details :=
          List.filter_eq_self.mpr (fun a ha => by simpa using hwon a ha)
        have hlf : ((serviceSyncOk env deals).1.lost_details.filter
            (fun w => env.patchCode w.deal_id == 200)) =
            (serviceSyncOk env deals).1.lost_details :=
          List.filter_eq_self.mpr (fun a ha => by simpa using hlost a ha)
        have hwonn : (serviceSyncOk env deals).1.won =
            (serviceSyncOk env deals).1.won_details.length := by
          simp only [serviceSyncOk] at hwf ⊢
          rw [hwf]
        have hlostn : (serviceSyncOk env deals).1.lost =
            (serviceSyncOk env deals).1.lost_details.length := by
          simp only [serviceSyncOk] at hlf ⊢
          rw [hlf]
        unfold bucketSum
        omega
      · intro hsum
        unfold bucketSum at hsum
        have hwonn : (serviceSyncOk env deals).1.won =
            (serviceSyncOk env deals).1.won_details.length := by omega
        have hlostn : (serviceSyncOk env deals).1.lost =
            (serviceSyncOk env deals).1.lost_details.length := by omega
        rw [hW, hwd] at hwonn
        rw [hL, hld] at hlostn
        constructor
        · intro w hw
          rw [hwd] at hw
          have := List.filter_length_eq_length.mp hwonn w hw
          simpa using this
        · intro w hw
          rw [hld] at hw
          have := List.filter_length_eq_length.mp hlostn w hw
          simpa using this
  · intro env dr rep ws h
    rcases hf : fetchDealsLoop env.dealPages with e | deals
    · simp [cliMain, hf] at h
    · simp only [cliMain, hf] at h
      rcases hc : cliClassify env.mp deals with e | res
      · simp [hc] at h
      · simp only [hc, Except.ok.injEq] at h
        have hrep : rep = (cliMainOk env dr deals res).1 := by rw [h]
        subst hrep
        have := cliClassify_sum env.mp deals res hc
        simp only [cliMainOk]
        simpa using this

/-- Concrete instantiation of `C3_partition_amended`: a run whose single
PATCH succeeds does satisfy the emitted partition. -/
def envC3ok : ServiceEnv :=
  { dealPages := [⟨200, [⟨"d1", ⟨"Offerte #1", "", ""⟩, "Voorstel verstuurd"⟩], false⟩],
    mp := fun _ => .resp 200 "Order" "ACME",
    patchCode := fun _ => 200,
    taskPages := [⟨200, [], false⟩],
    deleteCode := fun _ => 204 }

theorem C3_partition_amended_witness :
    bucketSum (serviceSyncOk envC3ok
      [⟨"d1", ⟨"Offerte #1", "", ""⟩, "Voorstel verstuurd"⟩]).1 =
      (serviceSyncOk envC3ok
        [⟨"d1", ⟨"Offerte #1", "", ""⟩, "Voorstel verstuurd"⟩]).1.deals_checked :=
  (C3_partition_amended.1 envC3ok _ _ rfl).2.mp ⟨by decide, by decide⟩

/- ### C4: lookup-failure handling -/

theorem check_mp_status_fst_none_iff (w : LookupWire) :
    (check_mp_status w).1 = none ↔ wireFails w = true := by
  cases w with
  | resp code qs comp =>
    by_cases hc : code = 200 <;> simp [check_mp_status, wireFails, hc]
  | exc m => simp [check_mp_status, wireFails]

theorem wonEntry_elim (mp : String → LookupWire) (x : Deal × String) (w : WonItem)
    (h : wonEntry mp x = some w) :
    w.qn = x.2 ∧ w.deal_id = x.1.id ∧ wireFails (mp x.2) = false := by
  unfold wonEntry at h
  rcases hc : check_mp_status (mp x.2) with ⟨st, comp⟩
  cases st with
  | none => simp [hc] at h
  | some s =>
    simp only [hc] at h
    have hfail : wireFails (mp x.2) = false := by
      rcases hb : wireFails (mp x.2)
      · rfl
      · have := (check_mp_status_fst_none_iff (mp x.2)).mpr hb
        rw [hc] at this
        cases this
    rcases hcl : classify_status s
    case won =>
      simp only [hcl, Option.some.injEq] at h
      subst h
      exact ⟨rfl, rfl, hfail⟩
    case lost => simp [hcl] at h
    case unchanged => simp [hcl] at h

theorem lostEntry_elim (mp : String → LookupWire) (x : Deal × String) (w : LostItem)
    (h : lostEntry mp x = some w) :
    w.qn = x.2 ∧ w.deal_id = x.1.id ∧ wireFails (mp x.2) = false := by
  unfold lostEntry at h
  rcases hc : check_mp_status (mp x.2) with ⟨st, comp⟩
  cases st with
  | none => simp [hc] at h
  | some s =>
    simp only [hc] at h
    have hfail : wireFails (mp x.2) = false := by
      rcases hb : wireFails (mp x.2)
      · rfl
      · have := (check_mp_status_fst_none_iff (mp x.2)).mpr hb
        rw [hc] at this
        cases this
    rcases hcl : classify_status s
    case lost =>
      simp only [hcl, Option.some.injEq] at h
      subst h
      exact ⟨rfl, rfl, hfail⟩
    case won => simp [hcl] at h
    case unchanged => simp [hcl] at h

theorem serviceSync_ok_elim (env : ServiceEnv) (rep : SyncReport) (ws : List WriteReq)
    (h : serviceSync env = .ok (rep, ws)) :
    ∃ deals, fetchDealsLoop env.dealPages = .ok deals ∧
      rep = (serviceSyncOk env deals).1 ∧ ws = (serviceSyncOk env deals).2 := by
  rcases hf : fetchDealsLoop env.dealPages with e | deals
  · simp [serviceSync, hf] at h
  · simp only [serviceSync, hf, Except.ok.injEq] at h
    exact ⟨deals, rfl, by rw [h], by rw [h]⟩

/-- A CLI run in which the single quotation lookup raises (transport
failure / timeout). -/
def envC4 : CliEnv :=
  { dealPages := [⟨200, [⟨"d1", ⟨"Offerte #7", "", ""⟩, "?"⟩], false⟩],
    mp := fun _ => .exc "Connection timed out",
    patchCode := fun _ => 200,
    taskSearch := ⟨200, []⟩,
    assoc := fun _ => ⟨200, []⟩,
    deleteCode := fun _ => 204 }

/-- C4 counterexample: in the CLI variant a transport failure during the
per-identifier lookup is NOT recovered locally — the uncaught exception
aborts the whole run instead of landing in the error bucket. -/
theorem C4_counterexample :
    cliMain envC4 false = .error "Connection timed out" := by
  rfl

/-- C4 amended: the service variant recovers every lookup failure (transport
failure, timeout or non-200) locally: it is counted in the error bucket —
disjoint from Unchanged — never aborts the run, and every stage PATCH issued
targets a deal whose lookup succeeded.  The CLI variant recovers only non-200
responses this way; a raised transport exception propagates and is the only
way its classification loop can abort. -/
theorem C4_lookup_failure_amended :
    (∀ w, (check_mp_status w).1 = none ↔ wireFails w = true) ∧
    (∀ env e, serviceSync env = .error e ↔ fetchDealsLoop env.dealPages = .error e) ∧
    (∀ mp work, (classifyAll mp work).errors = work.countP (errP mp) ∧
      (classifyAll mp work).skip = work.countP (skipP mp) ∧
      ∀ x, ¬(errP mp x = true ∧ skipP mp x = true)) ∧
    (∀ env rep ws, serviceSync env = .ok (rep, ws) →
      ∀ id st, WriteReq.patchDeal id st ∈ ws →
        (∃ w ∈ rep.won_details, w.deal_id = id ∧ wireFails (env.mp w.qn) = false) ∨
        (∃ w ∈ rep.lost_details, w.deal_id = id ∧ wireFails (env.mp w.qn) = false)) ∧
    (∀ code qs comp, code ≠ 200 →
      check_multipress_status (.resp code qs comp) =
        .ok (none, "HTTP " ++ toString code)) ∧
    (∀ m, check_multipress_status (.exc m) = .error m) ∧
    (∀ mp deals e, cliClassify mp deals = .error e → ∃ q, mp q = .exc e) := by
  refine ⟨check_mp_status_fst_none_iff, ?_, ?_, ?_, ?_, fun m => rfl, ?_⟩
  · intro env e
    rcases hf : fetchDealsLoop env.dealPages with e' | deals <;>
      simp [serviceSync, hf]
  · intro mp work
    refine ⟨classifyAll_errors mp work, classifyAll_skip mp work, ?_⟩
    intro x
    rcases h : check_mp_status (mp x.2) with ⟨st, comp⟩
    cases st <;> simp [errP, skipP, h]
  · intro env rep ws h id st hmem
    obtain ⟨deals, hf, hrep, hws⟩ := serviceSync_ok_elim env rep ws h
    subst hrep
    subst hws
    simp only [serviceSyncOk, List.mem_append, List.mem_map] at hmem
    rcases hmem with ((⟨w, hw, heq⟩ | ⟨w, hw, heq⟩) | ⟨tid, -, heq⟩)
    · left
      rw [classifyAll_won] at hw
      obtain ⟨x, hx, hxw⟩ := List.mem_filterMap.mp hw
      obtain ⟨hqn, hid, hok⟩ := wonEntry_elim env.mp x w hxw
      cases heq
      refine ⟨w, ?_, rfl, by rw [hqn]; exact hok⟩
      simp only [serviceSyncOk]
      rw [classifyAll_won]
      exact hw
    · right
      rw [classifyAll_lost] at hw
      obtain ⟨x, hx, hxw⟩ := List.mem_filterMap.mp hw
      obtain ⟨hqn, hid, hok⟩ := lostEntry_elim env.mp x w hxw
      cases heq
      refine ⟨w, ?_, rfl, by rw [hqn]; exact hok⟩
      simp only [serviceSyncOk]
      rw [classifyAll_lost]
      exact hw
    · exact WriteReq.noConfusion heq
  · intro code qs comp hc
    simp [check_multipress_status, hc]
  · intro mp deals e h
    induction deals with
    | nil => simp [cliClassify] at h
    | cons d ds ih =>
      simp only [cliClassify] at h
      cases he : extract_quotation_number d with
      | none =>
        simp only [he] at h
        cases hrec : cliClassify mp ds with
        | error e' =>
          simp only [hrec, Except.map, Except.error.injEq] at h
          subst h
          exact ih hrec
        | ok r => simp [hrec, Except.map] at h
      | some qn =>
        simp only [he] at h
        rcases hw : mp qn with ⟨code, qs, comp⟩ | m
        · by_cases hc : code = 200
          · rw [hw] at h
            simp only [check_multipress_status, hc, if_pos] at h
            cases hrec : cliClassify mp ds with
            | error e' =>
              simp only [hrec, Except.map, Except.error.injEq] at h
              subst h
              exact ih hrec
            | ok r => simp [hrec, Except.map] at h
          · rw [hw] at h
            simp only [check_multipress_status, hc, if_neg, not_false_iff] at h
            cases hrec : cliClassify mp ds with
            | error e' =>
              simp only [hrec, Except.map, Except.error.injEq] at h
              subst h
              exact ih hrec
            | ok r => simp [hrec, Except.map] at h
        · rw [hw] at h
          simp only [check_multipress_status, Except.error.injEq] at h
          subst h
          exact ⟨qn, hw⟩

/-- Concrete instantiation of `C4_lookup_failure_amended`: a 500 response in
the CLI lookup is folded into a recoverable `(None, "HTTP 500")` result. -/
theorem C4_lookup_failure_amended_witness :
    check_multipress_status (LookupWire.resp 500 "x" "y") =
      .ok (none, "HTTP " ++ toString 500) :=
  C4_lookup_failure_amended.2.2.2.2.1 500 "x" "y" (by decide)

/- ### C5: dry-run issues no writes and classifies identically -/

theorem fdtLoop_dry (assoc : String → AssocResp) (del : String → Nat)
    (deal_id qn : String) (ts : List HsTask) :
    fdtLoop assoc del deal_id qn true ts = (0, []) := by
  induction ts with
  | nil => rfl
  | cons t ts ih =>
    unfold fdtLoop
    rw [ih]
    by_cases hsub : hasSub ("#" ++ qn).data t.subject.data = false
    · rw [if_pos hsub]
    · rw [if_neg hsub]
      by_cases hspare : (assoc t.id).status = 200 ∧ deal_id ∉ (assoc t.id).linked
      · rw [if_pos hspare]
      · rw [if_neg hspare, if_pos rfl]

theorem find_and_delete_task_dry (search : TaskSearchResp) (assoc : String → AssocResp)
    (del : String → Nat) (deal_id qn : String) :
    find_and_delete_task search assoc del deal_id qn true = (0, []) := by
  unfold find_and_delete_task
  by_cases hst : search.status ≠ 200
  · rw [if_pos hst]
  · rw [if_neg hst]
    exact fdtLoop_dry assoc del deal_id qn search.results

/-- C5: a CLI dry run (the default) still fetches, checks and classifies
fully — its bucket lists and total equal the live run's on the same upstream
responses — but issues zero mutating requests (no PATCH, no DELETE) and
deletes zero tasks. -/
theorem C5_dry_run_frame (env : CliEnv) (rep : CliReport) (ws : List WriteReq)
    (h : cliMain env true = .ok (rep, ws)) :
    ws = [] ∧ rep.tasks_deleted = 0 ∧
    ∃ rep2 ws2, cliMain env false = .ok (rep2, ws2) ∧
      rep2.results = rep.results ∧ rep2.total = rep.total := by
  rcases hf : fetchDealsLoop env.dealPages with e | deals
  · simp [cliMain, hf] at h
  · simp only [cliMain, hf] at h
    rcases hc : cliClassify env.mp deals with e | res
    · simp [hc] at h
    · simp only [hc, Except.ok.injEq] at h
      have hrep : rep = (cliMainOk env true deals res).1 := by rw [h]
      have hws : ws = (cliMainOk env true deals res).2 := by rw [h]
      subst hrep
      subst hws
      refine ⟨?_, ?_, (cliMainOk env false deals res).1, (cliMainOk env false deals res).2,
        by simp [cliMain, hf, hc], rfl, rfl⟩
      · simp [cliMainOk, find_and_delete_task_dry, List.flatten_eq_nil_iff]
      · simp only [cliMainOk, find_and_delete_task_dry]
        apply List.sum_eq_zero
        intro n hn
        simp only [List.map_map, List.mem_map] at hn
        obtain ⟨it, -, hit⟩ := hn
        simpa using hit.symm

/-- A CLI run with one deal that classifies Won and one matching follow-up
task, used to instantiate `C5_dry_run_frame`. -/
def envC5 : CliEnv :=
  { dealPages := [⟨200, [⟨"d1", ⟨"Offerte #9", "", ""⟩, "?"⟩], false⟩],
    mp := fun _ => .resp 200 "Order" "ACME",
    patchCode := fun _ => 200,
    taskSearch := ⟨200, [⟨"t1", "Opvolgen - Offerte #9"⟩]⟩,
    assoc := fun _ => ⟨200, ["d1"]⟩,
    deleteCode := fun _ => 204 }

/-- The report of the dry run in `envC5`. -/
def repC5 : CliReport :=
  ⟨1, ⟨[⟨"d1", "Offerte #9", "9", "Order", "ACME"⟩], [], [], [], []⟩, 0⟩

/-- Concrete instantiation of `C5_dry_run_frame` on `envC5`: the dry run
issues no writes and the live run classifies identically. -/
theorem C5_dry_run_frame_witness :
    ([] : List WriteReq) = [] ∧ repC5.tasks_deleted = 0 ∧
    ∃ rep2 ws2, cliMain envC5 false = .ok (rep2, ws2) ∧
      rep2.results = repC5.results ∧ rep2.total = repC5.total :=
  C5_dry_run_frame envC5 repC5 [] (by rfl)

/- ### C6: task-deletion scope (service variant) -/

theorem tasksForQn_mem (tasks : List HsTask) (qn tid : String) :
    tid ∈ tasksForQn tasks qn ↔
      ∃ t ∈ tasks, t.id = tid ∧ parseOfferteNum t.subject = some qn := by
  unfold tasksForQn
  simp only [List.mem_map, List.mem_filter, beq_iff_eq]
  constructor
  · rintro ⟨t, ⟨ht, hp⟩, hid⟩
    exact ⟨t, ht, hid, hp⟩
  · rintro ⟨t, ht, hid, hp⟩
    exact ⟨t, ⟨ht, hp⟩, hid⟩

/-- C6: every task DELETE the service run issues targets a fetched task whose
subject's `Offerte #<digits>` number is among the quotation numbers just
classified Won or Lost (the identifiers whose stage-write was issued this
run); a task whose number is in none of the two buckets — unchanged, error,
no-identifier, or simply unrelated — is never deleted. -/
theorem C6_task_deletion_scope (env : ServiceEnv) (rep : SyncReport) (ws : List WriteReq)
    (h : serviceSync env = .ok (rep, ws)) :
    (∀ tid, WriteReq.deleteTask tid ∈ ws →
      ∃ qn t,
        (qn ∈ rep.won_details.map WonItem.qn ∨ qn ∈ rep.lost_details.map LostItem.qn) ∧
        t ∈ fetchTasksLoop env.taskPages ∧ t.id = tid ∧
        parseOfferteNum t.subject = some qn) ∧
    (∀ tid, (∀ t, t ∈ fetchTasksLoop env.taskPages → t.id = tid →
        ∀ qn, parseOfferteNum t.subject = some qn →
          ¬(qn ∈ rep.won_details.map WonItem.qn ∨ qn ∈ rep.lost_details.map LostItem.qn)) →
      WriteReq.deleteTask tid ∉ ws) := by
  obtain ⟨deals, hf, hrep, hws⟩ := serviceSync_ok_elim env rep ws h
  subst hrep
  subst hws
  have hmain : ∀ tid, WriteReq.deleteTask tid ∈ (serviceSyncOk env deals).2 →
      ∃ qn t,
        (qn ∈ (serviceSyncOk env deals).1.won_details.map WonItem.qn ∨
          qn ∈ (serviceSyncOk env deals).1.lost_details.map LostItem.qn) ∧
        t ∈ fetchTasksLoop env.taskPages ∧ t.id = tid ∧
        parseOfferteNum t.subject = some qn := by
    intro tid hmem
    simp only [serviceSyncOk, List.mem_append, List.mem_map] at hmem
    rcases hmem with ((⟨w, hw, heq⟩ | ⟨w, hw, heq⟩) | ⟨a, ha, heq⟩)
    · exact WriteReq.noConfusion heq
    · exact WriteReq.noConfusion heq
    · injection heq with ha'
      subst ha'
      simp only [List.mem_flatten, List.mem_map] at ha
      obtain ⟨l, ⟨qn, hqn, hl⟩, htid⟩ := ha
      subst hl
      have hqns := dedupGo_subset _ _ _ hqn
      have hne : ((classifyAll env.mp (buildWork deals).2).won.map WonItem.qn ++
          (classifyAll env.mp (buildWork deals).2).lost.map LostItem.qn) ≠ [] :=
        List.ne_nil_of_mem hqns
      have hemp : (dedupGo [] ((classifyAll env.mp (buildWork deals).2).won.map WonItem.qn ++
          (classifyAll env.mp (buildWork deals).2).lost.map LostItem.qn)).isEmpty = false := by
        rcases hb : (dedupGo [] _).isEmpty
        · rfl
        · exact absurd hb (by
            intro hb'
            exact List.ne_nil_of_mem hqn (List.isEmpty_iff.mp hb'))
      rw [if_neg (by simp [hemp])] at htid
      obtain ⟨t, ht, hid, hp⟩ := (tasksForQn_mem _ _ _).mp htid
      refine ⟨qn, t, ?_, ht, hid, hp⟩
      simp only [serviceSyncOk]
      exact List.mem_append.mp hqns
  refine ⟨hmain, ?_⟩
  intro tid hno hmem
  obtain ⟨qn, t, hq, ht, hid, hp⟩ := hmain tid hmem
  exact hno t ht hid qn hp hq

/-- A service run with one Won deal (`qn = "1"`) and two fetched follow-up
tasks, for `#1` and `#2`. -/
def envC6 : ServiceEnv :=
  { dealPages := [⟨200, [⟨"d1", ⟨"Offerte #1", "", ""⟩, "Voorstel verstuurd"⟩], false⟩],
    mp := fun _ => .resp 200 "Order" "ACME",
    patchCode := fun _ => 200,
    taskPages := [⟨200, [⟨"t1", "Opvolgen - Offerte #1"⟩, ⟨"t2", "Opvolgen - Offerte #2"⟩], false⟩],
    deleteCode := fun _ => 204 }

/-- The report of the run in `envC6`. -/
def repC6 : SyncReport :=
  { deals_checked := 1, no_quotation_number := 0, api_errors := 0,
    unchanged := 0, won := 1, lost := 0, tasks_deleted := 1,
    won_details := [⟨"d1", "1", "ACME", "Voorstel verstuurd"⟩],
    lost_details := [] }

/-- Concrete instantiation of `C6_task_deletion_scope`: in `envC6` the task
for the unrelated quotation number `"2"` is never deleted. -/
theorem C6_task_deletion_scope_witness :
    WriteReq.deleteTask "t2" ∉
      [WriteReq.patchDeal "d1" STAGE_GEWONNEN, WriteReq.deleteTask "t1"] :=
  (C6_task_deletion_scope envC6 repC6
      [WriteReq.patchDeal "d1" STAGE_GEWONNEN, WriteReq.deleteTask "t1"]
      (by rfl)).2 "t2" (by decide)

/- ### C7: behaviour of paginated reads on non-success responses -/

/-- A service run whose deal fetch succeeds (one Won deal) but whose task
search answers HTTP 500. -/
def envC7 : ServiceEnv :=
  { dealPages := [⟨200, [⟨"d1", ⟨"Offerte #1", "", ""⟩, "Voorstel verstuurd"⟩], false⟩],
    mp := fun _ => .resp 200 "Order" "ACME",
    patchCode := fun _ => 200,
    taskPages := [⟨500, [], false⟩],
    deleteCode := fun _ => 204 }

/-- C7 counterexample: the task-fetch page in `envC7` is a non-success
response (HTTP 500), yet the run does not abort — it completes normally with
a full report, silently proceeding as if no tasks existed. -/
theorem C7_counterexample :
    serviceSync envC7 =
      .ok ({ deals_checked := 1, no_quotation_number := 0, api_errors := 0,
             unchanged := 0, won := 1, lost := 0, tasks_deleted := 0,
             won_details := [⟨"d1", "1", "ACME", "Voorstel verstuurd"⟩],
             lost_details := [] },
           [WriteReq.patchDeal "d1" STAGE_GEWONNEN]) := by
  rfl

/-- C7 amended: a non-success response during the paginated DEAL fetch aborts
the entire run with a propagated failure, in both variants, before any write.
The TASK fetch, by contrast, never aborts on a non-success response: the
service's task loop ignores the status code entirely, and the CLI's task
search returns zero deletions for that deal and the run continues. -/
theorem C7_fetch_failure_amended :
    (∀ p rest, 400 ≤ p.status → p.status < 600 →
      fetchDealsLoop (p :: rest) = .error ("HTTP " ++ toString p.status)) ∧
    (∀ env e, fetchDealsLoop env.dealPages = .error e → serviceSync env = .error e) ∧
    (∀ env dr e, fetchDealsLoop env.dealPages = .error e → cliMain env dr = .error e) ∧
    (∀ s1 s2 res nx rest,
      fetchTasksLoop (⟨s1, res, nx⟩ :: rest) = fetchTasksLoop (⟨s2, res, nx⟩ :: rest)) ∧
    (∀ search assoc del deal_id qn dr, search.status ≠ 200 →
      find_and_delete_task search assoc del deal_id qn dr = (0, [])) := by
  refine ⟨?_, ?_, ?_, ?_, ?_⟩
  · intro p rest h1 h2
    unfold fetchDealsLoop
    rw [if_pos ⟨h1, h2⟩]
  · intro env e h
    simp [serviceSync, h]
  · intro env dr e h
    simp [cliMain, h]
  · intro s1 s2 res nx rest
    rfl
  · intro search assoc del deal_id qn dr h
    unfold find_and_delete_task
    rw [if_pos h]

/-- Concrete instantiation of `C7_fetch_failure_amended`: a 503 deal-fetch
page aborts the fetch with a propagated error. -/
theorem C7_fetch_failure_amended_witness :
    fetchDealsLoop [⟨503, [], false⟩] = .error ("HTTP " ++ toString 503) :=
  C7_fetch_failure_amended.1 ⟨503, [], false⟩ [] (by decide) (by decide)

/- ### C8: order-independence of the parallel classification -/

/-- C8: for a fixed identifier-to-wire mapping, permuting the order in which
the lookup results are processed leaves the error and unchanged counts equal
and the won and lost buckets permutations of each other — in particular
equal as sets. -/
theorem C8_classification_order_independent (mp : String → LookupWire)
    (w1 w2 : List (Deal × String)) (h : w1.Perm w2) :
    (classifyAll mp w1).errors = (classifyAll mp w2).errors ∧
    (classifyAll mp w1).skip = (classifyAll mp w2).skip ∧
    (classifyAll mp w1).won.Perm (classifyAll mp w2).won ∧
    (classifyAll mp w1).lost.Perm (classifyAll mp w2).lost ∧
    (∀ x, x ∈ (classifyAll mp w1).won ↔ x ∈ (classifyAll mp w2).won) ∧
    (∀ x, x ∈ (classifyAll mp w1).lost ↔ x ∈ (classifyAll mp w2).lost) := by
  have hwon : (classifyAll mp w1).won.Perm (classifyAll mp w2).won := by
    rw [classifyAll_won, classifyAll_won]
    exact h.filterMap _
  have hlost : (classifyAll mp w1).lost.Perm (classifyAll mp w2).lost := by
    rw [classifyAll_lost, classifyAll_lost]
    exact h.filterMap _
  refine ⟨?_, ?_, hwon, hlost, fun x => hwon.mem_iff, fun x => hlost.mem_iff⟩
  · rw [classifyAll_errors, classifyAll_errors]
    exact h.countP_eq _
  · rw [classifyAll_skip, classifyAll_skip]
    exact h.countP_eq _

/-- Work list (two deals), and the same list processed in the opposite
order, under a mapping sending `"1"` to Won and `"2"` to Lost. -/
def workC8 : List (Deal × String) :=
  [(⟨"dA", ⟨"A", "", ""⟩, "?"⟩, "1"), (⟨"dB", ⟨"B", "", ""⟩, "?"⟩, "2")]

def workC8r : List (Deal × String) :=
  [(⟨"dB", ⟨"B", "", ""⟩, "?"⟩, "2"), (⟨"dA", ⟨"A", "", ""⟩, "?"⟩, "1")]

def mpC8 : String → LookupWire := fun q =>
  if q = "1" then .resp 200 "Order" "X" else .resp 200 "Vervallen" "Y"

/-- Concrete instantiation of `C8_classification_order_independent` on the
two-element work list and its reversal. -/
theorem C8_classification_order_independent_witness :
    (classifyAll mpC8 workC8).errors = (classifyAll mpC8 workC8r).errors ∧
    (classifyAll mpC8 workC8).skip = (classifyAll mpC8 workC8r).skip ∧
    (classifyAll mpC8 workC8).won.Perm (classifyAll mpC8 workC8r).won ∧
    (classifyAll mpC8 workC8).lost.Perm (classifyAll mpC8 workC8r).lost ∧
    (∀ x, x ∈ (classifyAll mpC8 workC8).won ↔ x ∈ (classifyAll mpC8 workC8r).won) ∧
    (∀ x, x ∈ (classifyAll mpC8 workC8).lost ↔ x ∈ (classifyAll mpC8 workC8r).lost) :=
  C8_classification_order_independent mpC8 workC8 workC8r (List.Perm.swap _ _ _)

/- ### C9: the shared-secret gate of the service endpoint -/

/-- C9: when `API_SECRET` is empty the `/sync` endpoint performs no
authorization check at all — the outcome is the same for every value of the
`X-API-Key` header (including a missing one) and a 401 is impossible — and a
401 is returned exactly when the secret is non-empty and the header differs
from it, in which case the handler returns before any work. -/
theorem C9_auth_gate (cfg : SvcConfig) (k : Option String) (env : ServiceEnv) :
    (cfg.api_secret = "" →
      (∀ k2, syncHandler cfg k env = syncHandler cfg k2 env) ∧
      syncHandler cfg k env ≠ .error .http401) ∧
    (syncHandler cfg k env = .error .http401 ↔
      (cfg.api_secret ≠ "" ∧ k ≠ some cfg.api_secret)) := by
  constructor
  · intro hs
    have hcond : ¬(cfg.api_secret ≠ "" ∧ k ≠ some cfg.api_secret) := by simp [hs]
    constructor
    · intro k2
      have hcond2 : ¬(cfg.api_secret ≠ "" ∧ k2 ≠ some cfg.api_secret) := by simp [hs]
      simp only [syncHandler, if_neg hcond, if_neg hcond2]
    · simp only [syncHandler, if_neg hcond]
      split_ifs with h5
      · simp
      · cases hs2 : serviceSync env <;> simp
  · constructor
    · intro he
      by_contra hcond
      simp only [syncHandler, if_neg hcond] at he
      split_ifs at he with h5
      · simp at he
      · cases hs2 : serviceSync env <;> rw [hs2] at he <;> simp at he
    · intro hcond
      simp only [syncHandler, if_pos hcond]

/-- An arbitrary environment for instantiating `C9_auth_gate`. -/
def envC9 : ServiceEnv :=
  { dealPages := [], mp := fun _ => .exc "x", patchCode := fun _ => 0,
    taskPages := [], deleteCode := fun _ => 0 }

/-- Concrete instantiation of `C9_auth_gate`: with an empty secret, a missing
header changes nothing and a 401 is impossible. -/
theorem C9_auth_gate_witness :
    (∀ k2, syncHandler ⟨"", "key", "pass"⟩ none envC9 =
      syncHandler ⟨"", "key", "pass"⟩ k2 envC9) ∧
    syncHandler ⟨"", "key", "pass"⟩ none envC9 ≠ .error .http401 :=
  (C9_auth_gate ⟨"", "key", "pass"⟩ none envC9).1 (by rfl)

/- ### C10: best-effort association verification before CLI task deletion -/

theorem fdtLoop_mem (assoc : String → AssocResp) (del : String → Nat)
    (deal_id qn : String) (ts : List HsTask) (tid : String) :
    WriteReq.deleteTask tid ∈ (fdtLoop assoc del deal_id qn false ts).2 ↔
      ∃ t ∈ ts, t.id = tid ∧ hasSub ("#" ++ qn).data t.subject.data = true ∧
        ¬((assoc t.id).status = 200 ∧ deal_id ∉ (assoc t.id).linked) := by
  induction ts with
  | nil => simp [fdtLoop]
  | cons t ts ih =>
    unfold fdtLoop
    by_cases hsub : hasSub ("#" ++ qn).data t.subject.data = false
    · rw [if_pos hsub]
      rw [ih]
      constructor
      · rintro ⟨t', ht', hrest⟩
        exact ⟨t', List.mem_cons_of_mem _ ht', hrest⟩
      · rintro ⟨t', ht', hid, hs, hv⟩
        rcases List.mem_cons.mp ht' with h | h
        · subst h
          rw [hsub] at hs
          cases hs
        · exact ⟨t', h, hid, hs, hv⟩
    · have hsub' : hasSub ("#" ++ qn).data t.subject.data = true := by
        rcases hb : hasSub ("#" ++ qn).data t.subject.data
        · exact absurd hb hsub
        · rfl
      rw [if_neg hsub]
      by_cases hspare : (assoc t.id).status = 200 ∧ deal_id ∉ (assoc t.id).linked
      · rw [if_pos hspare]
        rw [ih]
        constructor
        · rintro ⟨t', ht', hrest⟩
          exact ⟨t', List.mem_cons_of_mem _ ht', hrest⟩
        · rintro ⟨t', ht', hid, hs, hv⟩
          rcases List.mem_cons.mp ht' with h | h
          · subst h
            exact absurd hspare hv
          · exact ⟨t', h, hid, hs, hv⟩
      · rw [if_neg hspare]
        have hcons : WriteReq.deleteTask tid ∈
            (WriteReq.deleteTask t.id :: (fdtLoop assoc del deal_id qn false ts).2) ↔
            (t.id = tid ∨ WriteReq.deleteTask tid ∈ (fdtLoop assoc del deal_id qn false ts).2) := by
          rw [List.mem_cons]
          constructor
          · rintro (h | h)
            · injection h with h'
              exact Or.inl h'.symm
            · exact Or.inr h
          · rintro (h | h)
            · exact Or.inl (by rw [h])
            · exact Or.inr h
        have hgoal : (WriteReq.deleteTask tid ∈
            (WriteReq.deleteTask t.id :: (fdtLoop assoc del deal_id qn false ts).2)) ↔
            ∃ t' ∈ t :: ts, t'.id = tid ∧ hasSub ("#" ++ qn).data t'.subject.data = true ∧
              ¬((assoc t'.id).status = 200 ∧ deal_id ∉ (assoc t'.id).linked) := by
          rw [hcons, ih]
          constructor
          · rintro (h | ⟨t', ht', hrest⟩)
            · exact ⟨t, List.mem_cons_self t ts, h, hsub', hspare⟩
            · exact ⟨t', List.mem_cons_of_mem _ ht', hrest⟩
          · rintro ⟨t', ht', hid, hs, hv⟩
            rcases List.mem_cons.mp ht' with h | h
            · subst h
              exact Or.inl hid
            · exact Or.inr ⟨t', h, hid, hs, hv⟩
        simp only [if_neg (Bool.false_ne_true)]
        by_cases hdel : del t.id = 200 ∨ del t.id = 204
        · rw [if_pos hdel]
          exact hgoal
        · rw [if_neg hdel]
          exact hgoal

/-- C10: with a successful (200) task search in the live CLI run, a task
whose subject contains `"#" ++ qn` is deleted whenever its association lookup
is non-200 (verification skipped, best-effort) or links it to the deal; it is
spared only by a successful (200) association lookup whose linked-deal list
excludes the deal; and every DELETE issued targets a found task whose subject
contains `"#" ++ qn`. -/
theorem C10_assoc_verification_best_effort (search : TaskSearchResp)
    (assoc : String → AssocResp) (del : String → Nat) (deal_id qn : String)
    (hs : search.status = 200) :
    (∀ t, t ∈ search.results → hasSub ("#" ++ qn).data t.subject.data = true →
      ((assoc t.id).status ≠ 200 ∨ deal_id ∈ (assoc t.id).linked) →
      WriteReq.deleteTask t.id ∈ (find_and_delete_task search assoc del deal_id qn false).2) ∧
    ((search.results.map HsTask.id).Nodup →
      ∀ t, t ∈ search.results → hasSub ("#" ++ qn).data t.subject.data = true →
      (assoc t.id).status = 200 → deal_id ∉ (assoc t.id).linked →
      WriteReq.deleteTask t.id ∉ (find_and_delete_task search assoc del deal_id qn false).2) ∧
    (∀ tid, WriteReq.deleteTask tid ∈ (find_and_delete_task search assoc del deal_id qn false).2 →
      ∃ t ∈ search.results, t.id = tid ∧ hasSub ("#" ++ qn).data t.subject.data = true) := by
  have hred : find_and_delete_task search assoc del deal_id qn false =
      fdtLoop assoc del deal_id qn false search.results := by
    unfold find_and_delete_task
    rw [if_neg (by simp [hs])]
  refine ⟨?_, ?_, ?_⟩
  · intro t ht hsub hv
    rw [hred, fdtLoop_mem]
    refine ⟨t, ht, rfl, hsub, ?_⟩
    rintro ⟨h200, hnot⟩
    rcases hv with hv | hv
    · exact hv h200
    · exact hnot hv
  · intro hnd t ht hsub h200 hnot hmem
    rw [hred, fdtLoop_mem] at hmem
    obtain ⟨t', ht', hid, hs', hv⟩ := hmem
    have : t' = t := List.inj_on_of_nodup_map hnd ht' ht hid
    subst this
    exact hv ⟨h200, hnot⟩
  · intro tid hmem
    rw [hred, fdtLoop_mem] at hmem
    obtain ⟨t, ht, hid, hs', -⟩ := hmem
    exact ⟨t, ht, hid, hs'⟩

/-- A task search with one matching task whose association lookup fails with
HTTP 500. -/
def searchC10 : TaskSearchResp := ⟨200, [⟨"t1", "Opvolgen - Offerte #5"⟩]⟩

/-- Concrete instantiation of `C10_assoc_verification_best_effort`: the task
is still selected for deletion although the association lookup answered
500. -/
theorem C10_assoc_verification_best_effort_witness :
    WriteReq.deleteTask "t1" ∈
      (find_and_delete_task searchC10 (fun _ => ⟨500, []⟩) (fun _ => 204) "d9" "5" false).2 :=
  (C10_assoc_verification_best_effort searchC10 (fun _ => ⟨500, []⟩) (fun _ => 204)
      "d9" "5" rfl).1 ⟨"t1", "Opvolgen - Offerte #5"⟩ (by decide) (by decide)
    (Or.inl (by decide))
